import Mathlib

/-!
Verification of the synthaser rule-graph classification engine and
interval utilities, shallowly embedded from src/synthaser/classify.py and
src/synthaser/models.py.

Machine integers of the source are modelled as unbounded integers (the
Python source uses unbounded int), Python float threshold 0.9 is modelled
as the rational 9/10 (for all coordinate magnitudes representable in the
source data the double rounding of 0.9 times an integer never crosses an
integer boundary, so the comparison agrees with the exact rational one),
and fallible Python code (KeyError, TypeError, SyntaxError, NameError)
is modelled with Except.
-/

namespace Synthaser

/-- One conserved-domain hit, from models.py class Domain.
Field type is the mutable label, field domain the immutable family,
start and end the 1-based inclusive coordinates (field end is written
end_ because end is a Lean keyword). Python class Domain defines eq
comparing all four fields, which is what list membership tests use. -/
structure Domain where
  type : String
  domain : String
  start : ℤ
  end_ : ℤ
deriving DecidableEq, Repr, Inhabited

/-- A classification rule, from classify.py class Rule.
Python dicts (rename, filters) are modelled as association lists in
insertion order. -/
structure Rule where
  name : String
  rename : List (String × String)
  domains : List String
  filters : List (String × List String)
  evaluator : String
deriving DecidableEq, Repr, Inhabited

/-- A Python value produced by eval of a substituted evaluator string:
either a bool (True and False literals) or an int (digit runs left
unsubstituted, e.g. an out-of-range placeholder index). -/
inductive PyVal where
  | bool (b : Bool)
  | int (n : ℤ)
deriving DecidableEq, Repr

/-- Python truthiness of an evaluation result, as used by
`if rules[node].satisfied_by(domains)` in traverse_graph. -/
def truthy : PyVal → Bool
  | .bool b => b
  | .int n => decide (n ≠ 0)

/-- Tokens of the boolean expression language that eval receives after
placeholder substitution. -/
inductive PyTok where
  | lparen
  | rparen
  | tokAnd
  | tokOr
  | tokNot
  | lit (v : PyVal)
deriving DecidableEq, Repr

/-- Word characters for the Python lexer (identifier or number parts). -/
def isWordChar (c : Char) : Bool := c.isAlphanum || c = '_'

/-- Decimal value of a digit run, as the Python lexer reads it. -/
def digitsToNat (w : List Char) : Nat :=
  w.foldl (fun n c => n * 10 + (c.toNat - 48)) 0

/-- Classify one lexed word the way the Python lexer and evaluator do:
keywords and boolean literals; a pure digit run is an int literal; a word
starting with a digit but containing letters is a SyntaxError; any other
identifier raises NameError inside eval. -/
def classifyWord (w : List Char) : Except String PyTok :=
  if w = "and".toList then .ok .tokAnd
  else if w = "or".toList then .ok .tokOr
  else if w = "not".toList then .ok .tokNot
  else if w = "True".toList then .ok (.lit (.bool true))
  else if w = "False".toList then .ok (.lit (.bool false))
  else if w.all Char.isDigit then .ok (.lit (.int (digitsToNat w)))
  else if (w.head?.map Char.isDigit).getD false then
    .error "SyntaxError: invalid decimal literal"
  else .error "NameError: name is not defined"

/-- Tokenizer with explicit fuel (the fuel is the character count, which
always suffices since every step consumes at least one character). -/
def tokenizeFuel : Nat → List Char → Except String (List PyTok)
  | _, [] => .ok []
  | 0, _ :: _ => .error "SyntaxError: tokenizer out of fuel"
  | fuel + 1, c :: cs =>
    if c = ' ' then tokenizeFuel fuel cs
    else if c = '(' then
      match tokenizeFuel fuel cs with
      | .error e => .error e
      | .ok ts => .ok (.lparen :: ts)
    else if c = ')' then
      match tokenizeFuel fuel cs with
      | .error e => .error e
      | .ok ts => .ok (.rparen :: ts)
    else if isWordChar c then
      let word := (c :: cs).takeWhile isWordChar
      let rest := (c :: cs).dropWhile isWordChar
      match classifyWord word with
      | .error e => .error e
      | .ok t =>
        match tokenizeFuel fuel rest with
        | .error e => .error e
        | .ok ts => .ok (t :: ts)
    else .error "SyntaxError: invalid character"

/-- Precedence levels of the Python boolean grammar:
or below and below not below atoms. -/
inductive PMode where
  | orE
  | andE
  | notE
  | atomE
deriving DecidableEq, Repr

/-- Recursive-descent evaluation of the token stream with Python value
semantics: x or y keeps x when x is truthy, x and y keeps x when x is
falsy, not x yields a bool. Right-nested parsing of the chains is value
equivalent to the left associativity of the Python grammar because both
connectives are associative in value semantics. Fuel bounds the descent
depth; pyEval supplies enough for any token list. -/
def parseE : Nat → PMode → List PyTok → Except String (PyVal × List PyTok)
  | 0, _, _ => .error "SyntaxError: expression too deep"
  | fuel + 1, .orE, ts =>
    match parseE fuel .andE ts with
    | .error e => .error e
    | .ok (v, ts1) =>
      match ts1 with
      | .tokOr :: ts2 =>
        match parseE fuel .orE ts2 with
        | .error e => .error e
        | .ok (v2, ts3) => .ok (if truthy v then v else v2, ts3)
      | _ => .ok (v, ts1)
  | fuel + 1, .andE, ts =>
    match parseE fuel .notE ts with
    | .error e => .error e
    | .ok (v, ts1) =>
      match ts1 with
      | .tokAnd :: ts2 =>
        match parseE fuel .andE ts2 with
        | .error e => .error e
        | .ok (v2, ts3) => .ok (if truthy v then v2 else v, ts3)
      | _ => .ok (v, ts1)
  | fuel + 1, .notE, ts =>
    match ts with
    | .tokNot :: ts1 =>
      match parseE fuel .notE ts1 with
      | .error e => .error e
      | .ok (v, ts2) => .ok (.bool (! truthy v), ts2)
    | _ => parseE fuel .atomE ts
  | _ + 1, .atomE, .lit v :: ts => .ok (v, ts)
  | fuel + 1, .atomE, .lparen :: ts =>
    match parseE fuel .orE ts with
    | .error e => .error e
    | .ok (v, ts1) =>
      match ts1 with
      | .rparen :: ts2 => .ok (v, ts2)
      | _ => .error "SyntaxError: expected closing paren"
  | _ + 1, .atomE, _ => .error "SyntaxError: invalid syntax"

/-- Model of the Python eval call in Rule.evaluate, restricted to the
boolean placeholder-substitution language the rule files use. An empty
or malformed string is a SyntaxError, an unknown identifier a NameError,
exactly as eval raises them. -/
def pyEval (s : List Char) : Except String PyVal :=
  match tokenizeFuel s.length s with
  | .error e => .error e
  | .ok ts =>
    match parseE (4 * ts.length + 8) .orE ts with
    | .error e => .error e
    | .ok (v, []) => .ok v
    | .ok (_, _ :: _) => .error "SyntaxError: invalid syntax"

/-- One pass of Python str.replace over a character list: leftmost,
non-overlapping, replaces every occurrence. Fuel is the list length,
sufficient because every step consumes at least one character when the
pattern is nonempty (all call sites pass a nonempty decimal pattern). -/
def replaceGo : Nat → List Char → List Char → List Char → List Char
  | _, [], _, _ => []
  | 0, s, _, _ => s
  | fuel + 1, c :: cs, pat, rep =>
    if pat.isPrefixOf (c :: cs) then rep ++ replaceGo fuel ((c :: cs).drop pat.length) pat rep
    else c :: replaceGo fuel cs pat rep

/-- Python str.replace(pattern, replacement) on character lists. -/
def replaceAll (s pat rep : List Char) : List Char :=
  replaceGo s.length s pat rep

/-- Python str(True) and str(False). -/
def pyBoolChars (b : Bool) : List Char :=
  if b then "True".toList else "False".toList

/-- The substitution loop of Rule.evaluate: iterate over the enumerated
condition list in reverse (highest index first, to avoid a lower index
being replaced inside the digits of a higher one) and textually replace
each decimal index with the string form of its boolean. -/
def substitute (ev : List Char) (conditions : List Bool) : List Char :=
  conditions.enum.reverse.foldl
    (fun s ic => replaceAll s (Nat.toDigits 10 ic.1) (pyBoolChars ic.2)) ev

/-- Rule.evaluate from classify.py: substitute the placeholder indices
into the evaluator string from highest to lowest and eval the result. -/
def Rule.evaluate (r : Rule) (conditions : List Bool) : Except String PyVal :=
  pyEval (substitute r.evaluator.toList conditions)

/-- Rule.valid_family from classify.py: if families are listed for the
label, require membership, otherwise accept any family. -/
def Rule.valid_family (r : Rule) (d : Domain) : Bool :=
  match r.filters.lookup d.type with
  | some fams => fams.contains d.domain
  | none => true

/-- The inner scan of Rule.satisfied_by: first hit, in hit order, that is
not already consumed (membership in seen is by Python value equality of
Domain) and has the required label and an acceptable family. -/
def findMatch (ruleDomain : String) (r : Rule) (seen : List Domain) :
    List Domain → Option Domain
  | [] => none
  | d :: ds =>
    if d ∈ seen then findMatch ruleDomain r seen ds
    else if d.type = ruleDomain ∧ r.valid_family d = true then some d
    else findMatch ruleDomain r seen ds

/-- The outer loop of Rule.satisfied_by: one boolean per required label,
in order, consuming a matched hit by appending it to seen. The hit list
is threaded through as explicit state; the source loop reads the list and
never writes it or its elements. -/
def conditionsLoop (r : Rule) :
    List String → List Domain → List Domain → List Bool × List Domain
  | [], domains, _ => ([], domains)
  | rd :: rds, domains, seen =>
    match findMatch rd r seen domains with
    | some d =>
      let rec_ := conditionsLoop r rds domains (seen ++ [d])
      (true :: rec_.1, rec_.2)
    | none =>
      let rec_ := conditionsLoop r rds domains seen
      (false :: rec_.1, rec_.2)

/-- Rule.satisfied_by from classify.py: build the condition vector, then
evaluate the evaluator expression on it. Returns the eval result (a
Python value, truth-tested by callers) together with the final state of
the hit list. -/
def Rule.satisfied_by (r : Rule) (domains : List Domain) :
    Except String (PyVal × List Domain) :=
  let res := conditionsLoop r r.domains domains []
  match r.evaluate res.1 with
  | .error e => .error e
  | .ok v => .ok (v, res.2)

/-- Rule.rename_domains from classify.py. The source line
domain.type = self.rename[domain] subscripts the rename dict with the
Domain object itself, not with domain.type; Domain defines eq without
hash, so the object is unhashable and this line raises TypeError
whenever it is reached, i.e. whenever some hit label is a key of a
non-empty rename map. -/
def Rule.rename_domains (r : Rule) (domains : List Domain) :
    Except String (List Domain) :=
  if r.rename = [] then .ok domains
  else renameLoop r domains
where
  renameLoop (r : Rule) : List Domain → Except String (List Domain)
    | [] => .ok []
    | d :: ds =>
      if (r.rename.lookup d.type).isSome then
        .error "TypeError: unhashable type: Domain"
      else
        match renameLoop r ds with
        | .error e => .error e
        | .ok rest => .ok (d :: rest)

/-- hits_overlap from models.py: overlap length clamped at zero, compared
against threshold times either length; true when either comparison holds.
The Python float threshold 0.9 is modelled exactly as the rational 9/10. -/
def hits_overlap (a b : Domain) (threshold : ℚ) : Bool :=
  let s : ℤ := max a.start b.start
  let e : ℤ := min a.end_ b.end_
  let overlap : ℤ := max 0 (e - s)
  decide (threshold * ((a.end_ - a.start : ℤ) : ℚ) ≤ (overlap : ℚ)) ||
    decide (threshold * ((b.end_ - b.start : ℤ) : ℚ) ≤ (overlap : ℚ))

/-- The default overlap threshold of models.py. -/
def defaultThreshold : ℚ := 9 / 10

/-- Sorting by the start attribute, as domains.sort(key=attrgetter("start"))
does (a stable sort; any two stable sorts by the same key agree). -/
def sortByStart (domains : List Domain) : List Domain :=
  List.insertionSort (fun a b => a.start ≤ b.start) domains

/-- The grouping loop of group_overlapping_hits: the head of the remaining
list anchors a group; the scan adds following hits while they overlap the
anchor and closes the group at the first failure. The fuel is the list
length, which always suffices because every round consumes the anchor. -/
def groupGo (threshold : ℚ) : Nat → List Domain → List (List Domain)
  | _, [] => []
  | 0, _ :: _ => []
  | fuel + 1, d :: rest =>
    (d :: rest.takeWhile (fun x => hits_overlap d x threshold)) ::
      groupGo threshold fuel (rest.dropWhile (fun x => hits_overlap d x threshold))

/-- group_overlapping_hits from models.py: sort by start, then group by
overlap against each group anchor. -/
def group_overlapping_hits (domains : List Domain) (threshold : ℚ) :
    List (List Domain) :=
  groupGo threshold (sortByStart domains).length (sortByStart domains)

/-- The while loop of rename_parent_domain, carrying the element at
index - 1 separately. On a merge the pair collapses into the left element
retyped to the child (keeping its coordinates), the right element is
popped, and the same index is re-tested against the following element;
otherwise the left element is emitted and the scan advances. -/
def renameParentGo (parent child : String) : Domain → List Domain → List Domain
  | one, [] => [one]
  | one, two :: rest =>
    if hits_overlap one two defaultThreshold
        && (one.type == parent && two.type == child) then
      renameParentGo parent child { one with type := child } rest
    else
      one :: renameParentGo parent child two rest

/-- rename_parent_domain from models.py: scan adjacent pairs; when they
overlap at the default threshold and their types are (parent, child),
retype the left hit to the child type and drop the right hit. -/
def rename_parent_domain (domains : List Domain) (parent child : String) :
    List Domain :=
  match domains with
  | [] => []
  | d :: ds => renameParentGo parent child d ds

/-- A query synthase, from models.py class Synthase (the fields the
classification and relabeling code reads). -/
structure Synthase where
  header : String
  sequence : String
  domains : List Domain
  type : String
  subtype : String
deriving DecidableEq, Repr, Inhabited

/-- All suffixes of a character list, longest first. -/
def strTails : List Char → List (List Char)
  | [] => [[]]
  | c :: cs => (c :: cs) :: strTails cs

/-- Substring containment, modelling the Python expression
needle in haystack on str. -/
def strContains (hay needle : String) : Bool :=
  (strTails hay.toList).any (fun t => needle.toList.isPrefixOf t)

/-- The fixed relabel table of rename_nrps_domains. -/
def nrpsReplace : List (String × String) := [("ACP", "T"), ("TR", "R")]

/-- Apply the fixed relabel table to one hit. -/
def applyReplace (d : Domain) : Domain :=
  match nrpsReplace.lookup d.type with
  | some t => { d with type := t }
  | none => d

/-- The start index computed by the Hybrid branch of rename_nrps_domains.
The Python for loop leaves the loop variable at the index of the first
hit typed C when the break fires; when no hit is typed C the loop runs to
the end and the variable keeps the last index, length - 1 (and keeps its
initial value 0 when the list is empty, since the loop body never runs). -/
def hybridStart (domains : List Domain) : Nat :=
  match domains.findIdx? (fun d => d.type = "C") with
  | some i => i
  | none => domains.length - 1

/-- Synthase.rename_nrps_domains from models.py: skip PKS-type and
untyped synthases; for Hybrid synthases start at hybridStart, otherwise
at 0; apply the fixed relabel table from the start index onward; finally
merge adjacent overlapping (C, E) pairs. -/
def Synthase.rename_nrps_domains (s : Synthase) : Synthase :=
  if s.type = "" || strContains s.type "PKS" then s
  else
    let start := if s.type = "Hybrid" then hybridStart s.domains else 0
    let doms := s.domains.take start ++ (s.domains.drop start).map applyReplace
    { s with domains := rename_parent_domain doms "C" "E" }

/-- The rule graph shape of classify.py: an entry of a level is either a
bare rule name (a terminal leaf) or a single-key mapping from a rule name
to a nested level (a labeled subtree), and a level is an ordered sequence
of entries. nil and cons build levels; traverse_graph dispatches on
whether its argument is a list or a dict, so levels and entries share one
type here, and a level appearing where an entry is expected is the
TypeError the Python code would raise on an unhashable key. -/
inductive Graph where
  | leaf : String → Graph
  | sub : String → Graph → Graph
  | nil : Graph
  | cons : Graph → Graph → Graph
deriving DecidableEq, Repr

/-- traverse_graph from classify.py, threading the mutable classifier
list and domain list and modelling raised exceptions with Except. On a
list: a leaf entry whose rule is satisfied renames, appends its name and
stops the level; a failed leaf moves to the next entry; after a subtree
entry the level stops exactly when the accumulated classifier list is
non-empty (the Python code breaks on a truthy classifiers value, which
includes names appended at ancestor levels). On a dict: a satisfied rule
renames, appends its name and recurses into its children; a failed rule
returns the accumulated classifiers unchanged. -/
def traverse_graph (rules : List (String × Rule)) :
    Graph → List Domain → List String → Except String (List String × List Domain)
  | .nil, domains, classifiers => .ok (classifiers, domains)
  | .cons (.leaf name) rest, domains, classifiers =>
    match rules.lookup name with
    | none => .error ("KeyError: " ++ name)
    | some r =>
      match r.satisfied_by domains with
      | .error e => .error e
      | .ok (v, domains1) =>
        if truthy v then
          match r.rename_domains domains1 with
          | .error e => .error e
          | .ok domains2 => .ok (classifiers ++ [name], domains2)
        else traverse_graph rules rest domains1 classifiers
  | .cons (.sub name children) rest, domains, classifiers =>
    match traverse_graph rules (.sub name children) domains classifiers with
    | .error e => .error e
    | .ok (cl2, domains2) =>
      if cl2.isEmpty then traverse_graph rules rest domains2 cl2
      else .ok (cl2, domains2)
  | .cons .nil _, _, _ => .error "TypeError: unhashable type: list"
  | .cons (.cons _ _) _, _, _ => .error "TypeError: unhashable type: list"
  | .sub name children, domains, classifiers =>
    match rules.lookup name with
    | none => .error ("KeyError: " ++ name)
    | some r =>
      match r.satisfied_by domains with
      | .error e => .error e
      | .ok (v, domains1) =>
        if truthy v then
          match r.rename_domains domains1 with
          | .error e => .error e
          | .ok domains2 => traverse_graph rules children domains2 (classifiers ++ [name])
        else .ok (classifiers, domains1)
  | .leaf _, _, _ => .error "AttributeError: str object has no attribute items"

/-- RuleGraph.classify from classify.py: traverse with an initially empty
classifier list. -/
def classify (rules : List (String × Rule)) (graph : Graph)
    (domains : List Domain) : Except String (List String × List Domain) :=
  traverse_graph rules graph domains []

/-- A Graph value is a well-formed level in the sense of the rule file
format: an ordered sequence whose entries are bare names or single-key
subtrees with well-formed levels as children. -/
def isLevel : Graph → Bool
  | .nil => true
  | .cons (.leaf _) rest => isLevel rest
  | .cons (.sub _ children) rest => isLevel children && isLevel rest
  | _ => false

/-- All rule names mentioned anywhere in a graph. -/
def graphNames : Graph → List String
  | .nil => []
  | .leaf n => [n]
  | .sub n children => n :: graphNames children
  | .cons e rest => graphNames e ++ graphNames rest

/-- A rule with no required domains and no filters or renames, whose
satisfaction is decided by its constant evaluator expression alone. -/
def mkConstRule (n ev : String) : Rule := ⟨n, [], [], [], ev⟩

/-- Rules for the traversal scenario of claim C1: rule A and both
children of the A subtree level are satisfiable, rule B is not. -/
def rulesC1 : List (String × Rule) :=
  [("A", mkConstRule "A" "True"), ("B", mkConstRule "B" "False"),
   ("C", mkConstRule "C" "True"), ("D", mkConstRule "D" "True")]

/-- The graph [ {A: [ {B: [C]}, D ]} ]: under the satisfied subtree A,
the first sibling is the unsatisfied subtree B and the second the
satisfiable leaf D. -/
def graphC1 : Graph :=
  .cons (.sub "A" (.cons (.sub "B" (.cons (.leaf "C") .nil))
    (.cons (.leaf "D") .nil))) .nil

/-- The per-requirement test of the satisfied_by scan: the hit bears the
required label and an acceptable family. -/
def matchesReq (r : Rule) (lab : String) (d : Domain) : Bool :=
  decide (d.type = lab) && r.valid_family d

end Synthaser

namespace Synthaser

/-! Helper lemmas about the embedded operations. -/

/-- The hit list threaded through the condition loop of
Rule.satisfied_by comes out exactly as it went in: the source loop only
reads the list (appending references to the local seen list), it never
writes an element field or the list itself. -/
theorem conditionsLoop_snd (r : Rule) :
    ∀ (rds : List String) (domains seen : List Domain),
    (conditionsLoop r rds domains seen).2 = domains := by
  intro rds
  induction rds with
  | nil => intro domains seen; rfl
  | cons rd rds ih =>
    intro domains seen
    simp only [conditionsLoop]
    cases findMatch rd r seen domains <;> simp [ih]

/-- Success values of Rule.satisfied_by carry the input hit list. -/
theorem satisfied_by_snd (r : Rule) (domains : List Domain) (v : PyVal)
    (domains2 : List Domain) (h : r.satisfied_by domains = .ok (v, domains2)) :
    domains2 = domains := by
  have hsnd := conditionsLoop_snd r r.domains domains []
  simp only [Rule.satisfied_by] at h
  cases he : r.evaluate (conditionsLoop r r.domains domains []).1 with
  | error e => rw [he] at h; cases h
  | ok v2 =>
    rw [he] at h
    cases h
    exact hsnd

/-- C9: for every rule and every hit list, satisfied_by leaves every hit
unchanged — when it returns a value, the hit list component of the result
is exactly the input list, so labels, families and positions are
untouched and the sequence is neither reordered nor resized. -/
theorem c9_satisfied_by_frame (r : Rule) (domains : List Domain) (v : PyVal)
    (domains2 : List Domain) (h : r.satisfied_by domains = .ok (v, domains2)) :
    domains2 = domains :=
  satisfied_by_snd r domains v domains2 h

/-- Witness for c9_satisfied_by_frame at a concrete rule and hit list:
the hypothesis is satisfiable and the hit list is returned unchanged. -/
theorem c9_satisfied_by_frame_witness :
    Rule.satisfied_by ⟨"W9", [], ["KS"], [], "0"⟩ [⟨"KS", "PKS_KS", 1, 10⟩]
      = .ok (.bool true, [⟨"KS", "PKS_KS", 1, 10⟩])
    ∧ ([⟨"KS", "PKS_KS", 1, 10⟩] : List Domain) = [⟨"KS", "PKS_KS", 1, 10⟩] :=
  ⟨rfl, c9_satisfied_by_frame ⟨"W9", [], ["KS"], [], "0"⟩ [⟨"KS", "PKS_KS", 1, 10⟩]
    (.bool true) [⟨"KS", "PKS_KS", 1, 10⟩] rfl⟩

/-- C2: the source line domain.type = self.rename[domain] subscripts the
string-keyed rename dict with the Domain object itself (unhashable, and
not the intended domain.type), so rename_domains raises instead of
renaming as its docstring describes: evaluated at a rule renaming ACP to
T and a hit labeled ACP, the call errors. -/
theorem c2_rename_domains_raises :
    Rule.rename_domains ⟨"C2", [("ACP", "T")], [], [], ""⟩
        [⟨"ACP", "PP-binding", 1, 10⟩]
      = .error "TypeError: unhashable type: Domain"
    ∧ (([("ACP", "T")] : List (String × String)).lookup "ACP" = some "T") :=
  ⟨rfl, rfl⟩

/-- C4 counterexample: a rule whose expression is the out-of-range
placeholder 5 with a single required domain: evaluate substitutes
nothing into the digit 5 and returns the ordinary Python int 5 — a
normal, truthy result — instead of failing with an evaluation error. -/
theorem c4_out_of_range_counterexample :
    (⟨"C4", [], ["KS"], [], "5"⟩ : Rule).evaluate [false] = .ok (.int 5)
    ∧ (⟨"C4", [], ["KS"], [], "5"⟩ : Rule).domains.length = 1
    ∧ truthy (.int 5) = true :=
  ⟨rfl, rfl, rfl⟩

/-- Evaluating the out-of-range expression 5 on a one-element true
condition vector: the substitution leaves the digit untouched. -/
theorem evaluate_five_true :
    (⟨"C4a", [], ["KS"], [], "5"⟩ : Rule).evaluate [true] = .ok (.int 5) := rfl

/-- Evaluating the out-of-range expression 5 on a one-element false
condition vector: the substitution leaves the digit untouched. -/
theorem evaluate_five_false :
    (⟨"C4a", [], ["KS"], [], "5"⟩ : Rule).evaluate [false] = .ok (.int 5) := rfl

/-- C4 amended: an expression consisting of an out-of-range placeholder
index whose digits survive substitution does not raise: it evaluates as
an ordinary Python integer literal, so satisfied_by returns the truthy
int 5 on every hit list and the rule is always (vacuously) satisfied,
the hits passing through unchanged. -/
theorem c4_out_of_range_amended (hits : List Domain) :
    Rule.satisfied_by ⟨"C4a", [], ["KS"], [], "5"⟩ hits = .ok (.int 5, hits) := by
  have hsnd := conditionsLoop_snd ⟨"C4a", [], ["KS"], [], "5"⟩ ["KS"] hits []
  simp only [Rule.satisfied_by, conditionsLoop] at hsnd ⊢
  cases h : findMatch "KS" ⟨"C4a", [], ["KS"], [], "5"⟩ [] hits <;>
    simp only [h] at hsnd ⊢ <;>
    simp [evaluate_five_true, evaluate_five_false, hsnd]

/-- C10: whenever one of the two hits is degenerate (start equal to end)
and the threshold is non-negative, the overlap predicate holds, because
that side's length threshold is zero while the clamped overlap length is
never negative — even for completely disjoint hits. A degenerate hit
therefore passes the overlap test against any anchor it is compared
with during grouping. -/
theorem c10_degenerate_overlap (a b : Domain) (threshold : ℚ)
    (hth : 0 ≤ threshold) (hdeg : a.start = a.end_ ∨ b.start = b.end_) :
    hits_overlap a b threshold = true := by
  have hov : (0 : ℚ) ≤ ((max 0 (min a.end_ b.end_ - max a.start b.start) : ℤ) : ℚ) := by
    exact_mod_cast le_max_left 0 (min a.end_ b.end_ - max a.start b.start)
  simp only [hits_overlap, Bool.or_eq_true, decide_eq_true_eq]
  rcases hdeg with h | h
  · left
    have hz : ((a.end_ - a.start : ℤ) : ℚ) = 0 := by rw [h]; simp
    rw [hz, mul_zero]
    exact hov
  · right
    have hz : ((b.end_ - b.start : ℤ) : ℚ) = 0 := by rw [h]; simp
    rw [hz, mul_zero]
    exact hov

/-- Witness for c10_degenerate_overlap: the default threshold is
non-negative and the disjoint pair with a degenerate second hit
(1 to 10 versus the point 100) still counts as overlapping. -/
theorem c10_degenerate_overlap_witness :
    (0 : ℚ) ≤ 9 / 10
    ∧ hits_overlap ⟨"KS", "a", 1, 10⟩ ⟨"AT", "b", 100, 100⟩ (9 / 10) = true :=
  ⟨by norm_num,
    c10_degenerate_overlap ⟨"KS", "a", 1, 10⟩ ⟨"AT", "b", 100, 100⟩ (9 / 10)
      (by norm_num) (Or.inr rfl)⟩

/-- The concrete pair of claim C8 does not satisfy the overlap predicate
at the default threshold: the overlap length is 20, below both
9/10 of 199 and 9/10 of 25. -/
theorem hits_overlap_c8_far :
    hits_overlap ⟨"C", "cond", 1, 200⟩ ⟨"E", "para", 180, 205⟩ defaultThreshold
      = false := by
  simp only [hits_overlap, defaultThreshold]
  norm_num

/-- Shortening the second hit of the C8 pair to 180..202 brings the
overlap length 20 above 9/10 of 22, so the pair overlaps. -/
theorem hits_overlap_c8_near :
    hits_overlap ⟨"C", "cond", 1, 200⟩ ⟨"E", "para", 180, 202⟩ defaultThreshold
      = true := by
  simp only [hits_overlap, defaultThreshold]
  norm_num

/-- First adjacent C pair of the chained example overlaps. -/
theorem hits_overlap_c8_chain1 :
    hits_overlap ⟨"C", "c1", 1, 100⟩ ⟨"C", "c2", 2, 100⟩ defaultThreshold
      = true := by
  simp only [hits_overlap, defaultThreshold]
  norm_num

/-- After the first merge the same index pairs the merged hit with the
third one, which also overlaps. -/
theorem hits_overlap_c8_chain2 :
    hits_overlap ⟨"C", "c1", 1, 100⟩ ⟨"C", "c3", 3, 99⟩ defaultThreshold
      = true := by
  simp only [hits_overlap, defaultThreshold]
  norm_num

/-- C8 counterexample: on the hits of the claim, the pair fails the
default-threshold overlap test (20 is less than 9/10 of 25), so
rename_parent_domain leaves the list unchanged — it does not collapse to
the single hit the claim describes. -/
theorem c8_chain_counterexample :
    rename_parent_domain [⟨"C", "cond", 1, 200⟩, ⟨"E", "para", 180, 205⟩] "C" "E"
      = [⟨"C", "cond", 1, 200⟩, ⟨"E", "para", 180, 205⟩]
    ∧ (rename_parent_domain [⟨"C", "cond", 1, 200⟩, ⟨"E", "para", 180, 205⟩]
        "C" "E").length ≠ 1 := by
  refine ⟨?_, ?_⟩ <;>
    simp [rename_parent_domain, renameParentGo, hits_overlap_c8_far]

/-- C8 amended: the merge re-tests the pair occupying the same index
after each merge, but the concrete pair of the claim does not overlap at
the default threshold and is returned unchanged; a pair that does
overlap (end 202 instead of 205) collapses into one hit keeping the
parent coordinates and the child label, and a three-hit chain whose
successive same-index pairs all overlap collapses to a single hit in one
pass. -/
theorem c8_chain_amended :
    rename_parent_domain [⟨"C", "cond", 1, 200⟩, ⟨"E", "para", 180, 205⟩] "C" "E"
      = [⟨"C", "cond", 1, 200⟩, ⟨"E", "para", 180, 205⟩]
    ∧ rename_parent_domain [⟨"C", "cond", 1, 200⟩, ⟨"E", "para", 180, 202⟩] "C" "E"
      = [⟨"E", "cond", 1, 200⟩]
    ∧ rename_parent_domain [⟨"C", "c1", 1, 100⟩, ⟨"C", "c2", 2, 100⟩, ⟨"C", "c3", 3, 99⟩]
        "C" "C"
      = [⟨"C", "c1", 1, 100⟩] := by
  refine ⟨?_, ?_, ?_⟩ <;>
    simp [rename_parent_domain, renameParentGo, hits_overlap_c8_far,
      hits_overlap_c8_near, hits_overlap_c8_chain1, hits_overlap_c8_chain2]

/-- Dropping all but the last element of a non-empty list leaves exactly
its last element. -/
theorem drop_length_sub_one {α : Type} (l : List α) (h : l ≠ []) :
    l.drop (l.length - 1) = [l.getLast h] := by
  induction l with
  | nil => exact absurd rfl h
  | cons a l ih =>
    cases l with
    | nil => rfl
    | cons b t =>
      have hlen : (a :: b :: t).length - 1 = ((b :: t).length - 1) + 1 := by
        simp
      rw [hlen, List.drop_succ_cons, ih (by simp)]
      simp [List.getLast_cons]

/-- C5 counterexample: a Hybrid synthase whose single hit is labeled ACP
and that has no hit labeled C. The claim predicts startIndex 1 (the
sequence length) and no relabeling; the code computes startIndex 0 (the
loop variable keeps the last index) and rewrites the ACP label to T. -/
theorem c5_hybrid_counterexample :
    hybridStart [⟨"ACP", "PP-binding", 1, 10⟩] = 0
    ∧ ([⟨"ACP", "PP-binding", 1, 10⟩] : List Domain).length = 1
    ∧ (Synthase.rename_nrps_domains
        ⟨"h", "", [⟨"ACP", "PP-binding", 1, 10⟩], "Hybrid", ""⟩).domains
      = [⟨"T", "PP-binding", 1, 10⟩]
    ∧ ([⟨"T", "PP-binding", 1, 10⟩] : List Domain) ≠ [⟨"ACP", "PP-binding", 1, 10⟩] :=
  ⟨rfl, rfl, rfl, by decide⟩

/-- C5 amended: for a Hybrid synthase with a non-empty hit sequence and
no hit labeled with the pivot label C, the Python for loop leaves the
loop variable at the last index, so startIndex becomes length - 1 (not
the length) and exactly the final hit is subjected to the fixed relabel
table before the adjacency merge runs. -/
theorem c5_hybrid_amended (s : Synthase) (hty : s.type = "Hybrid")
    (hnoC : ∀ d ∈ s.domains, d.type ≠ "C") (hne : s.domains ≠ []) :
    hybridStart s.domains = s.domains.length - 1
    ∧ (s.rename_nrps_domains).domains
      = rename_parent_domain
          (s.domains.dropLast ++ [applyReplace (s.domains.getLast hne)]) "C" "E" := by
  have hIdx : s.domains.findIdx? (fun d => d.type = "C") = none := by
    rw [List.findIdx?_eq_none_iff]
    intro x hx
    exact decide_eq_false (hnoC x hx)
  have hstart : hybridStart s.domains = s.domains.length - 1 := by
    simp only [hybridStart, hIdx]
  refine ⟨hstart, ?_⟩
  have hguard : (s.type = "" || strContains s.type "PKS") = false := by
    rw [hty]; rfl
  simp only [Synthase.rename_nrps_domains, hguard, hty, hstart, if_false,
    Bool.false_eq_true, if_true, reduceIte]
  rw [← List.dropLast_eq_take, drop_length_sub_one s.domains hne]
  rfl

/-- Witness for c5_hybrid_amended: a Hybrid synthase with two hits, ACP
then TR, none labeled C. -/
theorem c5_hybrid_amended_witness :
    hybridStart [⟨"ACP", "x", 1, 10⟩, ⟨"TR", "y", 20, 30⟩]
      = ([⟨"ACP", "x", 1, 10⟩, ⟨"TR", "y", 20, 30⟩] : List Domain).length - 1
    ∧ (Synthase.rename_nrps_domains
        ⟨"h", "", [⟨"ACP", "x", 1, 10⟩, ⟨"TR", "y", 20, 30⟩], "Hybrid", ""⟩).domains
      = rename_parent_domain
          (([⟨"ACP", "x", 1, 10⟩, ⟨"TR", "y", 20, 30⟩] : List Domain).dropLast
            ++ [applyReplace (([⟨"ACP", "x", 1, 10⟩, ⟨"TR", "y", 20, 30⟩] :
                  List Domain).getLast (by decide))]) "C" "E" :=
  c5_hybrid_amended ⟨"h", "", [⟨"ACP", "x", 1, 10⟩, ⟨"TR", "y", 20, 30⟩], "Hybrid", ""⟩
    rfl (by decide) (by decide)

/-- C1 counterexample: in the graph [ {A: [ {B: [C]}, D ]} ] with A, C, D
satisfiable and B not, the claim predicts that after the failed subtree
entry B the traversal continues with the sibling leaf D, giving the path
[A, D]; the code breaks on the truthy accumulated classifier list [A]
and returns [A] without ever reaching D. -/
theorem c1_traversal_counterexample :
    traverse_graph rulesC1 graphC1 [] [] = .ok (["A"], [])
    ∧ (mkConstRule "B" "False").satisfied_by [] = .ok (.bool false, [])
    ∧ (mkConstRule "D" "True").satisfied_by [] = .ok (.bool true, [])
    ∧ (["A"] : List String) ≠ ["A", "D"] :=
  ⟨rfl, rfl, rfl, by decide⟩

/-- C1 amended: at a level, a failed leaf entry always lets the
traversal continue with the next sibling, but after a subtree entry the
traversal stops exactly when the accumulated classifier list is
non-empty — which includes labels appended at ancestor levels, so a
failed subtree entry stops the level (returning the accumulated result
unchanged) whenever any ancestor already appended a label, and only
with an empty accumulated list does a failed subtree entry let the
traversal continue; when no entry at a level succeeds the accumulated
result is returned unchanged. -/
theorem c1_traversal_amended (rules : List (String × Rule)) (name : String)
    (children rest : Graph) (domains : List Domain) (classifiers : List String)
    (r : Rule) (v : PyVal)
    (hlk : rules.lookup name = some r)
    (hsat : r.satisfied_by domains = .ok (v, domains))
    (hfalse : truthy v = false) :
    (classifiers ≠ [] →
      traverse_graph rules (.cons (.sub name children) rest) domains classifiers
        = .ok (classifiers, domains))
    ∧ (classifiers = [] →
      traverse_graph rules (.cons (.sub name children) rest) domains classifiers
        = traverse_graph rules rest domains classifiers)
    ∧ traverse_graph rules (.cons (.leaf name) rest) domains classifiers
      = traverse_graph rules rest domains classifiers := by
  refine ⟨?_, ?_, ?_⟩
  · intro hne
    simp [traverse_graph, hlk, hsat, hfalse, List.isEmpty_iff, hne]
  · intro hemp
    subst hemp
    simp [traverse_graph, hlk, hsat, hfalse]
  · simp [traverse_graph, hlk, hsat, hfalse]

/-- Witness for c1_traversal_amended: the unsatisfied rule B as a
subtree entry below an already-appended ancestor label A stops the
level. -/
theorem c1_traversal_amended_witness :
    (["A"] : List String) ≠ []
    ∧ traverse_graph [("B", mkConstRule "B" "False")]
        (.cons (.sub "B" (.cons (.leaf "C") .nil)) (.cons (.leaf "D") .nil)) [] ["A"]
      = .ok (["A"], []) :=
  ⟨by decide,
    (c1_traversal_amended [("B", mkConstRule "B" "False")] "B"
      (.cons (.leaf "C") .nil) (.cons (.leaf "D") .nil) [] ["A"]
      (mkConstRule "B" "False") (.bool false) rfl rfl rfl).1 (by decide)⟩

/-- Concatenating the groups produced by the group scan restores the
scanned list: the group is its anchor followed by the taken prefix, and
the scan continues on the dropped suffix. -/
theorem groupGo_flatten (threshold : ℚ) :
    ∀ (fuel : Nat) (l : List Domain), l.length ≤ fuel →
    (groupGo threshold fuel l).flatten = l := by
  intro fuel
  induction fuel with
  | zero =>
    intro l hl
    cases l with
    | nil => rfl
    | cons d rest => simp at hl
  | succ fuel ih =>
    intro l hl
    cases l with
    | nil => rfl
    | cons d rest =>
      have hdrop : (rest.dropWhile (fun x => hits_overlap d x threshold)).length ≤ fuel := by
        have h1 := (List.dropWhile_sublist
          (l := rest) (fun x => hits_overlap d x threshold)).length_le
        simp only [List.length_cons] at hl
        omega
      simp only [groupGo, List.flatten_cons, List.cons_append, ih _ hdrop,
        List.takeWhile_append_dropWhile]

/-- Every group produced by the group scan is non-empty and every member
after the anchor passed the overlap test against the anchor itself (the
original first element, never a later-added member). -/
theorem groupGo_anchor (threshold : ℚ) :
    ∀ (fuel : Nat) (l : List Domain) (g : List Domain),
    g ∈ groupGo threshold fuel l →
    ∃ a t, g = a :: t ∧ ∀ x ∈ t, hits_overlap a x threshold = true := by
  intro fuel
  induction fuel with
  | zero =>
    intro l g hg
    cases l <;> simp [groupGo] at hg
  | succ fuel ih =>
    intro l g hg
    cases l with
    | nil => simp [groupGo] at hg
    | cons d rest =>
      simp only [groupGo, List.mem_cons] at hg
      rcases hg with hg | hg
      · exact ⟨d, _, hg, fun x hx =>
          List.mem_takeWhile_imp (p := fun y => hits_overlap d y threshold) hx⟩
      · exact ih _ g hg

/-- C7: group_overlapping_hits partitions the start-sorted input —
the concatenation of the groups in yield order is exactly the sorted
input (hence a permutation of the input, each element once, sizes
summing to the input length), and members join a group by overlapping
the original first element of the group. -/
theorem c7_partition (domains : List Domain) (threshold : ℚ) :
    (group_overlapping_hits domains threshold).flatten = sortByStart domains
    ∧ ((group_overlapping_hits domains threshold).map List.length).sum
      = domains.length
    ∧ (group_overlapping_hits domains threshold).flatten.Perm domains
    ∧ ∀ g ∈ group_overlapping_hits domains threshold,
        ∃ a t, g = a :: t ∧ ∀ x ∈ t, hits_overlap a x threshold = true := by
  have hflat : (group_overlapping_hits domains threshold).flatten
      = sortByStart domains :=
    groupGo_flatten threshold (sortByStart domains).length (sortByStart domains)
      (le_refl _)
  have hperm : (sortByStart domains).Perm domains := by
    unfold sortByStart
    exact List.perm_insertionSort (fun a b => a.start ≤ b.start) domains
  refine ⟨hflat, ?_, ?_, ?_⟩
  · rw [← List.length_flatten, hflat, sortByStart, List.length_insertionSort]
  · rw [hflat]; exact hperm
  · intro g hg
    exact groupGo_anchor threshold _ _ g hg

/-- C6 counterexample: a rule with no required domains is not vacuously
satisfied — its satisfaction is whatever its evaluator expression
evaluates to: with evaluator 0 satisfied_by returns the falsy int 0, and
with the empty default evaluator it raises a SyntaxError rather than
returning true. -/
theorem c6_empty_counterexample :
    (mkConstRule "Z" "0").domains = []
    ∧ (mkConstRule "Z" "0").satisfied_by [] = .ok (.int 0, [])
    ∧ truthy (.int 0) = false
    ∧ (mkConstRule "Z" "").satisfied_by [] = .error "SyntaxError: invalid syntax" :=
  ⟨rfl, rfl, rfl, rfl⟩

/-- C6 amended: a rule with empty requiredLabels consumes no hits and is
satisfied exactly when its evaluator expression evaluates truthy with no
substitutions (a constant True expression is satisfied by every hit
list, returning the hits unchanged); and a subject with an empty hit
list classified against a well-formed graph whose rules all evaluate
falsy on it yields the empty classification path without error. -/
theorem c6_empty_amended (g : Graph) (rules : List (String × Rule))
    (hlevel : isLevel g = true)
    (hlk : ∀ nm ∈ graphNames g, (rules.lookup nm).isSome)
    (hsat : ∀ nm r, rules.lookup nm = some r →
      ∃ v, r.satisfied_by [] = .ok (v, []) ∧ truthy v = false) :
    traverse_graph rules g [] [] = .ok ([], [])
    ∧ ∀ hits, Rule.satisfied_by ⟨"Vacuous", [], [], [], "True"⟩ hits
        = .ok (.bool true, hits) := by
  refine ⟨?_, fun hits => rfl⟩
  induction g with
  | leaf n => simp [isLevel] at hlevel
  | sub n children ih => simp [isLevel] at hlevel
  | nil => rfl
  | cons e rest ihe ihr =>
    cases e with
    | leaf n =>
      obtain ⟨r, hr⟩ := Option.isSome_iff_exists.mp
        (hlk n (by simp [graphNames]))
      obtain ⟨v, hv, hfalse⟩ := hsat n r hr
      have hrest := ihr (by simpa [isLevel] using hlevel)
        (fun nm hnm => hlk nm (by simp [graphNames]; right; exact hnm))
      simpa [traverse_graph, hr, hv, hfalse] using hrest
    | sub n children =>
      obtain ⟨r, hr⟩ := Option.isSome_iff_exists.mp
        (hlk n (by simp [graphNames]))
      obtain ⟨v, hv, hfalse⟩ := hsat n r hr
      have hrest := ihr (by simp [isLevel] at hlevel; exact hlevel.2)
        (fun nm hnm => hlk nm (by simp [graphNames]; right; right; exact hnm))
      simpa [traverse_graph, hr, hv, hfalse] using hrest
    | nil => simp [isLevel] at hlevel
    | cons a b => simp [isLevel] at hlevel

/-- Witness for c6_empty_amended: a one-leaf graph whose single rule has
the constant False evaluator, classified on an empty hit list. -/
theorem c6_empty_amended_witness :
    isLevel (.cons (.leaf "A") .nil) = true
    ∧ traverse_graph [("A", mkConstRule "A" "False")] (.cons (.leaf "A") .nil) [] []
      = .ok ([], [])
    ∧ Rule.satisfied_by ⟨"Vacuous", [], [], [], "True"⟩ [] = .ok (.bool true, []) := by
  have h := c6_empty_amended (.cons (.leaf "A") .nil) [("A", mkConstRule "A" "False")]
    rfl
    (by
      intro nm hnm
      simp [graphNames] at hnm
      subst hnm
      rfl)
    (by
      intro nm r hlook
      simp only [List.lookup] at hlook
      by_cases hnm : (nm == "A") = true
      · rw [hnm] at hlook
        cases hlook
        exact ⟨.bool false, rfl, rfl⟩
      · rw [Bool.not_eq_true] at hnm
        rw [hnm] at hlook
        cases hlook)
  exact ⟨rfl, h.1, h.2 []⟩

/-- The Boolean requirement test unfolded to the propositional test used
inside findMatch. -/
theorem matchesReq_iff (r : Rule) (lab : String) (d : Domain) :
    matchesReq r lab d = true ↔ (d.type = lab ∧ r.valid_family d = true) := by
  simp [matchesReq]

/-- Where the greedy scan lands: when the consumed set is (extensionally,
on matching hits) the first j matching hits of the list and the matching
hits are pairwise distinct as values, the scan returns the (j+1)-st
matching hit in hit order. Distinctness is needed because consumption is
tested by value equality, so a consumed value shadows its copies. -/
theorem findMatch_filter_take (r : Rule) (lab : String) :
    ∀ (l : List Domain) (j : Nat) (seen : List Domain),
    (∀ x ∈ l, matchesReq r lab x = true →
      (x ∈ seen ↔ x ∈ (l.filter (matchesReq r lab)).take j)) →
    (l.filter (matchesReq r lab)).Pairwise (· ≠ ·) →
    j < (l.filter (matchesReq r lab)).length →
    findMatch lab r seen l = (l.filter (matchesReq r lab))[j]? := by
  intro l
  induction l with
  | nil =>
    intro j seen hseen hpw hj
    simp at hj
  | cons d rest ih =>
    intro j seen hseen hpw hj
    by_cases hd : matchesReq r lab d = true
    · rw [List.filter_cons_of_pos hd] at hpw hj hseen ⊢
      cases j with
      | zero =>
        have hdseen : d ∉ seen := by
          intro hmem
          have := (hseen d (List.mem_cons_self d rest) hd).mp hmem
          simp at this
        simp only [findMatch, if_neg hdseen,
          if_pos ((matchesReq_iff r lab d).mp hd)]
        simp
      | succ j =>
        have hdseen : d ∈ seen := by
          apply (hseen d (List.mem_cons_self d rest) hd).mpr
          simp [List.take_succ_cons]
        simp only [findMatch, if_pos hdseen, List.getElem?_cons_succ]
        apply ih j seen ?_ (List.pairwise_cons.mp hpw).2 (by simpa using hj)
        intro x hx hmx
        have h1 := hseen x (List.mem_cons_of_mem d hx) hmx
        rw [List.take_succ_cons] at h1
        have hxne : x ≠ d := by
          have hxm : x ∈ rest.filter (matchesReq r lab) :=
            List.mem_filter.mpr ⟨hx, hmx⟩
          intro hEq
          exact ((List.pairwise_cons.mp hpw).1 x hxm) hEq.symm
        rw [h1]
        simp [List.mem_cons, hxne]
    · rw [List.filter_cons_of_neg (by simpa using hd)] at hpw hj hseen ⊢
      have hstep : findMatch lab r seen (d :: rest) = findMatch lab r seen rest := by
        by_cases hds : d ∈ seen
        · simp only [findMatch, if_pos hds]
        · have hnp : ¬(d.type = lab ∧ r.valid_family d = true) := by
            rw [← matchesReq_iff r lab d]
            exact hd
          simp only [findMatch, if_neg hds, if_neg hnp]
      rw [hstep]
      apply ih j seen ?_ hpw hj
      intro x hx hmx
      exact hseen x (List.mem_cons_of_mem d hx) hmx

/-- Running the condition loop on k copies of one required label, with
the first j matching hits already consumed and at least k more matching
hits available (all matching hits pairwise distinct as values), marks
every one of the k requirements as met, consuming exactly the next k
matching hits in hit order. -/
theorem conditionsLoop_replicate (r : Rule) (lab : String) (l : List Domain)
    (hpw : (l.filter (matchesReq r lab)).Pairwise (· ≠ ·)) :
    ∀ (k j : Nat), j + k ≤ (l.filter (matchesReq r lab)).length →
    conditionsLoop r (List.replicate k lab) l
        ((l.filter (matchesReq r lab)).take j)
      = (List.replicate k true, l) := by
  intro k
  induction k with
  | zero =>
    intro j hj
    simp [conditionsLoop]
  | succ k ih =>
    intro j hj
    have hjlt : j < (l.filter (matchesReq r lab)).length := by omega
    have hfind : findMatch lab r ((l.filter (matchesReq r lab)).take j) l
        = (l.filter (matchesReq r lab))[j]? :=
      findMatch_filter_take r lab l j _ (fun x hx hmx => Iff.rfl) hpw hjlt
    have hsome : (l.filter (matchesReq r lab))[j]?
        = some ((l.filter (matchesReq r lab))[j]) :=
      List.getElem?_eq_getElem hjlt
    rw [List.replicate_succ]
    simp only [conditionsLoop, hfind, hsome]
    have htake : (l.filter (matchesReq r lab)).take j
          ++ [(l.filter (matchesReq r lab))[j]]
        = (l.filter (matchesReq r lab)).take (j + 1) := by
      rw [List.take_succ, hsome]
      rfl
    rw [htake, ih (j + 1) (by omega)]
    simp [List.replicate_succ]

/-- C3 counterexample: a rule requiring KS twice against two
field-identical KS hits. The first requirement consumes the first hit;
the second requirement skips both hits because value-equal copies of a
consumed hit are also treated as consumed, so the condition vector is
[true, false] — not all requirements are met — and the rule 0 and 1 is
unsatisfied. -/
theorem c3_multiplicity_counterexample :
    conditionsLoop ⟨"C3x", [], ["KS", "KS"], [], "0 and 1"⟩ ["KS", "KS"]
        [⟨"KS", "PKS_KS", 1, 10⟩, ⟨"KS", "PKS_KS", 1, 10⟩] []
      = ([true, false], [⟨"KS", "PKS_KS", 1, 10⟩, ⟨"KS", "PKS_KS", 1, 10⟩])
    ∧ Rule.satisfied_by ⟨"C3x", [], ["KS", "KS"], [], "0 and 1"⟩
        [⟨"KS", "PKS_KS", 1, 10⟩, ⟨"KS", "PKS_KS", 1, 10⟩]
      = .ok (.bool false, [⟨"KS", "PKS_KS", 1, 10⟩, ⟨"KS", "PKS_KS", 1, 10⟩])
    ∧ ([true, false] : List Bool) ≠ [true, true] :=
  ⟨rfl, rfl, by decide⟩

/-- C3 amended: for a rule listing the same label k times, if the hit
list contains at least k hits bearing that label with acceptable
families that are pairwise distinct as field values, the condition loop
marks all k requirement entries as met and requirement j consumes the
(j+1)-st such hit in hit order (a consumed hit is unavailable to later
requirements); with field-identical copies the value-equality consumed
test shadows the copies, which is what the counterexample exhibits. -/
theorem c3_multiplicity_amended (r : Rule) (lab : String) (k : Nat)
    (hits : List Domain)
    (hdom : r.domains = List.replicate k lab)
    (hdist : (hits.filter (matchesReq r lab)).Pairwise (· ≠ ·))
    (hk : k ≤ (hits.filter (matchesReq r lab)).length) :
    conditionsLoop r r.domains hits [] = (List.replicate k true, hits)
    ∧ ∀ j, j < k →
      findMatch lab r ((hits.filter (matchesReq r lab)).take j) hits
        = (hits.filter (matchesReq r lab))[j]? := by
  constructor
  · rw [hdom]
    have h := conditionsLoop_replicate r lab hits hdist k 0 (by omega)
    simpa using h
  · intro j hj
    exact findMatch_filter_take r lab hits j _ (fun x hx hmx => Iff.rfl) hdist
      (by omega)

/-- Witness for c3_multiplicity_amended: a rule requiring KS twice and
two KS hits that differ in their family field — both requirements are
met. -/
theorem c3_multiplicity_amended_witness :
    conditionsLoop ⟨"C3", [], ["KS", "KS"], [], "0 and 1"⟩ ["KS", "KS"]
        [⟨"KS", "a", 1, 10⟩, ⟨"KS", "b", 20, 30⟩] []
      = ([true, true], [⟨"KS", "a", 1, 10⟩, ⟨"KS", "b", 20, 30⟩]) := by
  have h := c3_multiplicity_amended ⟨"C3", [], ["KS", "KS"], [], "0 and 1"⟩ "KS" 2
    [⟨"KS", "a", 1, 10⟩, ⟨"KS", "b", 20, 30⟩] rfl (by decide) (by decide)
  exact h.1

end Synthaser
